import Mathlib

/-!
Verification of the provider-adapter layer, turn engine, tool-call executor and
adapter registry of the gemini-cli fork, as a shallow embedding in Lean.

Sources embedded:
- `openaiCompatibleContentGenerator.ts` (OpenAI-compatible adapter)
- `anthropicContentGenerator.ts` (Anthropic adapter)
- `turn.ts` (Turn engine)
- `nonInteractiveToolExecutor.ts` (`executeToolCall`)
- `adapters/index.ts` (`createCustomContentGenerator`, registry)

Conventions of the embedding:
- JavaScript objects carrying JSON data are modelled by the inductive `Json`;
  JSON numbers are modelled as integers (no claim involves fractional values).
- `JSON.parse` is modelled by `Json.parse`, a recursive-descent parser
  returning `none` on malformed input (JS exceptions become `none`).
- JS `Map` objects (insertion-ordered) are modelled as association lists with
  `mapFind` / `mapSet`; `mapSet` keeps the position of an existing key and
  appends new keys, matching JS `Map` insertion-order iteration.
- JS string truthiness (`''` falsy) is modelled by `jsOr` / `truthyStr`.
- Asynchronous streams are modelled as lists of already-split wire lines;
  unparseable lines (whose `JSON.parse` would throw) appear as a `junk`
  constructor, since the adapters skip them.
-/

/-- JSON values as produced by `JSON.parse` (numbers restricted to integers). -/
inductive Json where
  | null : Json
  | bool (b : Bool) : Json
  | num (n : Int) : Json
  | str (s : String) : Json
  | arr (xs : List Json) : Json
  | obj (fields : List (String × Json)) : Json

/-- JS `a || b` for an optional string: `undefined` and `''` are falsy. -/
def jsOr (a : Option String) (b : String) : String :=
  match a with
  | some s => if s = "" then b else s
  | none => b

/-- JS truthiness filter for an optional string: keeps only non-empty values. -/
def truthyStr (a : Option String) : Option String :=
  match a with
  | some s => if s = "" then none else some s
  | none => none

/-- Lookup in an insertion-ordered association list (JS `Map.get`). -/
def mapFind {α β : Type} [DecidableEq α] (m : List (α × β)) (k : α) : Option β :=
  match m with
  | [] => none
  | (k', v) :: rest => if k' = k then some v else mapFind rest k

/-- JS `Map.set`: replace the value at an existing key in place, else append. -/
def mapSet {α β : Type} [DecidableEq α] (m : List (α × β)) (k : α) (v : β) :
    List (α × β) :=
  match m with
  | [] => [(k, v)]
  | (k', v') :: rest =>
      if k' = k then (k', v) :: rest else (k', v') :: mapSet rest k v

/-- Whitespace recognised by the JSON grammar. -/
def isJsonWs (c : Char) : Bool :=
  c = ' ' || c = '\n' || c = '\t' || c = '\r'

/-- Skip leading JSON whitespace. -/
def skipWs : List Char → List Char
  | [] => []
  | c :: rest => if isJsonWs c then skipWs rest else c :: rest

/-- Decode one JSON string escape character. -/
def jsonEscape? (c : Char) : Option Char :=
  match c with
  | '"' => some '"'
  | '\\' => some '\\'
  | '/' => some '/'
  | 'n' => some '\n'
  | 't' => some '\t'
  | 'r' => some '\r'
  | 'b' => some (Char.ofNat 8)
  | 'f' => some (Char.ofNat 12)
  | _ => none

/-- Parse the body of a JSON string after the opening quote. -/
def parseStringBody : List Char → String → Option (String × List Char)
  | [], _ => none
  | '"' :: rest, acc => some (acc, rest)
  | '\\' :: c :: rest, acc =>
      match jsonEscape? c with
      | some e => parseStringBody rest (acc.push e)
      | none => none
  | ['\\'], _ => none
  | c :: rest, acc => parseStringBody rest (acc.push c)

/-- Numeric value of a decimal digit character, if it is one. -/
def digitVal? (c : Char) : Option Nat :=
  if '0' ≤ c ∧ c ≤ '9' then some (c.toNat - '0'.toNat) else none

/-- Take a maximal run of decimal digits. -/
def takeDigits : List Char → List Nat × List Char
  | [] => ([], [])
  | c :: rest =>
      match digitVal? c with
      | some d =>
          let (ds, r) := takeDigits rest
          (d :: ds, r)
      | none => ([], c :: rest)

/-- Decimal digits to a natural number. -/
def digitsToNat (ds : List Nat) : Nat :=
  ds.foldl (fun a d => a * 10 + d) 0

/-- Parse a JSON integer (fractional and exponent forms are not modelled and
fail, falling into the adapters' parse-failure handling). -/
def parseNumber (cs : List Char) : Option (Int × List Char) :=
  let (neg, cs1) :=
    match cs with
    | '-' :: rest => (true, rest)
    | _ => (false, cs)
  match takeDigits cs1 with
  | ([], _) => none
  | (ds, rest) =>
      match rest with
      | '.' :: _ => none
      | 'e' :: _ => none
      | 'E' :: _ => none
      | _ =>
          let n : Int := Int.ofNat (digitsToNat ds)
          some (if neg then -n else n, rest)

/-- Require the given characters to be the next ones in the input. -/
def expectChars : List Char → List Char → Option (List Char)
  | [], cs => some cs
  | e :: es, c :: cs => if c = e then expectChars es cs else none
  | _ :: _, [] => none

mutual

/-- Fuel-indexed recursive-descent parser for one JSON value. -/
def parseVal : Nat → List Char → Option (Json × List Char)
  | 0, _ => none
  | fuel + 1, cs =>
      match skipWs cs with
      | [] => none
      | '{' :: rest =>
          (match skipWs rest with
           | '}' :: r2 => some (Json.obj [], r2)
           | _ => (parseMembers fuel rest).map (fun p => (Json.obj p.1, p.2)))
      | '[' :: rest =>
          (match skipWs rest with
           | ']' :: r2 => some (Json.arr [], r2)
           | _ => (parseItems fuel rest).map (fun p => (Json.arr p.1, p.2)))
      | '"' :: rest =>
          (parseStringBody rest "").map (fun p => (Json.str p.1, p.2))
      | 't' :: rest =>
          (expectChars ['r', 'u', 'e'] rest).map (fun r => (Json.bool true, r))
      | 'f' :: rest =>
          (expectChars ['a', 'l', 's', 'e'] rest).map
            (fun r => (Json.bool false, r))
      | 'n' :: rest =>
          (expectChars ['u', 'l', 'l'] rest).map (fun r => (Json.null, r))
      | other => (parseNumber other).map (fun p => (Json.num p.1, p.2))

/-- Parse the items of a non-empty JSON array, up to the closing bracket. -/
def parseItems : Nat → List Char → Option (List Json × List Char)
  | 0, _ => none
  | fuel + 1, cs =>
      match parseVal fuel cs with
      | none => none
      | some (j, rest) =>
          match skipWs rest with
          | ',' :: r2 => (parseItems fuel r2).map (fun p => (j :: p.1, p.2))
          | ']' :: r2 => some ([j], r2)
          | _ => none

/-- Parse the members of a non-empty JSON object, up to the closing brace. -/
def parseMembers : Nat → List Char → Option (List (String × Json) × List Char)
  | 0, _ => none
  | fuel + 1, cs =>
      match skipWs cs with
      | '"' :: rest =>
          (match parseStringBody rest "" with
           | none => none
           | some (k, r1) =>
               match skipWs r1 with
               | ':' :: r2 =>
                   (match parseVal fuel r2 with
                    | none => none
                    | some (v, r3) =>
                        match skipWs r3 with
                        | ',' :: r4 =>
                            (parseMembers fuel r4).map
                              (fun p => ((k, v) :: p.1, p.2))
                        | '}' :: r4 => some ([(k, v)], r4)
                        | _ => none)
               | _ => none)
      | _ => none

end

/-- `JSON.parse`: parse a complete JSON document, `none` on failure. -/
def Json.parse (s : String) : Option Json :=
  match parseVal (2 * s.length + 2) s.data with
  | some (j, rest) => if skipWs rest = [] then some j else none
  | none => none

/-- Escape one character for JSON string output. -/
def escapeJsonChar (c : Char) : String :=
  if c = '"' then "\\\""
  else if c = '\\' then "\\\\"
  else if c = '\n' then "\\n"
  else if c = '\t' then "\\t"
  else if c = '\r' then "\\r"
  else String.singleton c

/-- Escape a string for JSON string output. -/
def escapeJsonString (s : String) : String :=
  s.data.foldl (fun acc c => acc ++ escapeJsonChar c) ""

mutual

/-- Compact `JSON.stringify`. -/
def Json.stringify : Json → String
  | .null => "null"
  | .bool b => if b then "true" else "false"
  | .num n => toString n
  | .str s => "\"" ++ escapeJsonString s ++ "\""
  | .arr xs => "[" ++ stringifyItems xs ++ "]"
  | .obj fs => "\x7b" ++ stringifyMembers fs ++ "\x7d"

/-- Comma-joined compact rendering of array items. -/
def stringifyItems : List Json → String
  | [] => ""
  | [x] => Json.stringify x
  | x :: rest => Json.stringify x ++ "," ++ stringifyItems rest

/-- Comma-joined compact rendering of object members. -/
def stringifyMembers : List (String × Json) → String
  | [] => ""
  | [(k, v)] => "\"" ++ escapeJsonString k ++ "\":" ++ Json.stringify v
  | (k, v) :: rest =>
      "\"" ++ escapeJsonString k ++ "\":" ++ Json.stringify v ++ "," ++
        stringifyMembers rest

end

/-- A run of spaces, for indented JSON output. -/
def indentSpaces (n : Nat) : String :=
  String.mk (List.replicate n ' ')

mutual

/-- `JSON.stringify(v, null, 2)`: two-space indented rendering, used by the
Anthropic adapter when summarising tool results as text. -/
def Json.stringifyIndent : Nat → Json → String
  | _, .null => "null"
  | _, .bool b => if b then "true" else "false"
  | _, .num n => toString n
  | _, .str s => "\"" ++ escapeJsonString s ++ "\""
  | _, .arr [] => "[]"
  | ind, .arr (x :: xs) =>
      "[\n" ++ indentItems (ind + 2) (x :: xs) ++ "\n" ++
        indentSpaces ind ++ "]"
  | _, .obj [] => "\x7b\x7d"
  | ind, .obj (f :: fs) =>
      "\x7b\n" ++ indentMembers (ind + 2) (f :: fs) ++ "\n" ++
        indentSpaces ind ++ "\x7d"

/-- Indented rendering of array items. -/
def indentItems : Nat → List Json → String
  | _, [] => ""
  | ind, [x] => indentSpaces ind ++ Json.stringifyIndent ind x
  | ind, x :: rest =>
      indentSpaces ind ++ Json.stringifyIndent ind x ++ ",\n" ++
        indentItems ind rest

/-- Indented rendering of object members. -/
def indentMembers : Nat → List (String × Json) → String
  | _, [] => ""
  | ind, [(k, v)] =>
      indentSpaces ind ++ "\"" ++ escapeJsonString k ++ "\": " ++
        Json.stringifyIndent ind v
  | ind, (k, v) :: rest =>
      indentSpaces ind ++ "\"" ++ escapeJsonString k ++ "\": " ++
        Json.stringifyIndent ind v ++ ",\n" ++ indentMembers ind rest

end

/-- Argument-string decoding shared by both stream accumulators:
`toolCall.arguments ? JSON.parse(toolCall.arguments) : {}` with the JSON parse
failure caught and replaced by the empty object. -/
def parseArgsOrEmpty (s : String) : Json :=
  if s = "" then Json.obj []
  else
    match Json.parse s with
    | some j => j
    | none => Json.obj []

example : Json.parse "\x7b\"x\":1\x7d" = some (Json.obj [("x", Json.num 1)]) :=
  rfl

example : Json.parse "\x7b\"q\":\"cats\"\x7d" =
    some (Json.obj [("q", Json.str "cats")]) := rfl

example : Json.parse "\x7bbad" = none := rfl

example : Json.stringify (Json.obj [("a", Json.arr [Json.num 1, Json.null])]) =
    "\x7b\"a\":[1,null]\x7d" := rfl

/-! ## Unified message model (`@google/genai` shapes used by this code) -/

/-- A `Part` of a `Content`: the closed variant used by the adapters. -/
inductive UPart where
  | text (s : String) : UPart
  | functionCall (id : Option String) (name : String) (args : Json) : UPart
  | functionResponse (id : Option String) (name : String) (response : Json) :
      UPart
  | inlineData (data : String) : UPart

/-- One conversational turn's payload: a role plus ordered parts. -/
structure UContent where
  role : String
  parts : List UPart

/-- A completed function-call descriptor on a response
(`FunctionCall` of `@google/genai`: all fields optional on the wire). -/
structure UFunctionCall where
  id : Option String
  name : Option String
  args : Option Json

/-- One part of a response candidate's content, as read by the Turn engine
(`thought` marker plus optional text). -/
structure GenPart where
  thought : Bool
  text : Option String

/-- One response unit (`GenerateContentResponse` restricted to the fields the
embedded code reads or writes: candidate parts, finish reason, usage counters
elided, completed function calls). -/
structure GenResponse where
  parts : List GenPart
  finishReason : String
  functionCalls : List UFunctionCall

/-- A function declaration of the internal tool schema. -/
structure UFunctionDeclaration where
  name : String
  description : Option String
  parameters : Option Json

/-- An internal tool: a bag of function declarations. -/
structure UTool where
  functionDeclarations : List UFunctionDeclaration

/-- The request configuration bag (fields the embedded conversions read;
numeric pass-through fields such as temperature are elided: they are
floating-point and no claim concerns them). -/
structure GenConfig where
  responseMimeType : Option String
  responseSchema : Option Json
  tools : List UTool

/-- A generation request: model override, normalized Content history, config.
`normalizeContents` keeps exactly the array elements that carry a `parts`
field; the history is therefore modelled directly as a `List UContent`
(a zero-part Content carries `parts: []` and is kept by the normalizer). -/
structure GenRequest where
  model : Option String
  contents : List UContent
  config : Option GenConfig

/-- The adapter's `ContentGeneratorConfig` (fields used by the conversions). -/
structure AdapterConfig where
  model : String

/-! ## OpenAI-compatible adapter: outbound request translation -/

/-- JS object rendering of a `Part`, for the `JSON.stringify(part)` fallback
used on non-text parts. -/
def partToJson : UPart → Json
  | .text s => Json.obj [("text", Json.str s)]
  | .functionCall id name args =>
      Json.obj [("functionCall", Json.obj
        ((match id with
          | some i => [("id", Json.str i)]
          | none => []) ++ [("name", Json.str name), ("args", args)]))]
  | .functionResponse id name response =>
      Json.obj [("functionResponse", Json.obj
        ((match id with
          | some i => [("id", Json.str i)]
          | none => []) ++
            [("name", Json.str name), ("response", response)]))]
  | .inlineData d => Json.obj [("inlineData", Json.str d)]

/-- Per-part serialization of `convertToOpenAIFormat`:
`'text' in part ? part.text : JSON.stringify(part)`. -/
def oaiSerializePart (p : UPart) : String :=
  match p with
  | .text s => s
  | other => Json.stringify (partToJson other)

/-- One outbound OpenAI chat message. -/
structure OAIChatMessage where
  role : String
  content : String

/-- Per-content message construction of `convertToOpenAIFormat`: the role is
mapped `model → assistant` (everything else passed through) and the parts are
flattened to one newline-joined string. -/
def oaiMessageOfContent (c : UContent) : OAIChatMessage :=
  { role := if c.role = "model" then "assistant" else c.role
    content := String.intercalate "\n" (c.parts.map oaiSerializePart) }

/-- One OpenAI tool schema entry
(`{type: function, function: {name, description, parameters}}`). -/
structure OAIToolSchema where
  name : String
  description : String
  parameters : Json

/-- The JSON-only instruction injected for schema-constrained requests. -/
def jsonInstructionFor (schema : Json) : String :=
  "You must respond with valid JSON only. No additional text, explanations, or formatting. The response must conform to this schema: " ++
    Json.stringify schema

/-- JS truthiness of a JSON value (`false`, `0`, `''` and `null` are falsy). -/
def jsonTruthy : Json → Bool
  | Json.null => false
  | Json.bool b => b
  | Json.num n => n ≠ 0
  | Json.str s => s ≠ ""
  | Json.arr _ => true
  | Json.obj _ => true

/-- Does the request demand schema-constrained JSON output?
(`config?.responseMimeType === 'application/json' && config?.responseSchema`) -/
def wantsJsonOutput (request : GenRequest) : Option Json :=
  match request.config with
  | none => none
  | some cfg =>
      if cfg.responseMimeType = some "application/json" then
        match cfg.responseSchema with
        | some schema => if jsonTruthy schema then some schema else none
        | none => none
      else none

/-- Flatten the internal tool list to OpenAI tool schemas. -/
def oaiToolsOfConfig (request : GenRequest) : List OAIToolSchema :=
  match request.config with
  | none => []
  | some cfg =>
      (cfg.tools.map (fun t => t.functionDeclarations.map
        (fun fd =>
          { name := fd.name
            description := fd.description.getD ""
            parameters := fd.parameters.getD
              (Json.obj [("type", Json.str "object"),
                         ("properties", Json.obj [])]) }))).flatten

/-- The outbound OpenAI request (fields the conversion constructs; numeric
sampling fields elided). -/
structure OAIRequest where
  model : String
  messages : List OAIChatMessage
  tools : List OAIToolSchema
  tool_choice : Option String

/-- `convertToOpenAIFormat`: role-mapped newline-flattened messages, with a
leading system message injected for schema-constrained JSON requests, plus the
tool schema list (and `tool_choice: auto` when non-empty). -/
def convertToOpenAIFormat (request : GenRequest) (cfg : AdapterConfig) :
    OAIRequest :=
  let base := request.contents.map oaiMessageOfContent
  let messages :=
    match wantsJsonOutput request with
    | some schema =>
        { role := "system", content := jsonInstructionFor schema } :: base
    | none => base
  let tools := oaiToolsOfConfig request
  { model := jsOr request.model cfg.model
    messages := messages
    tools := tools
    tool_choice := if tools.isEmpty then none else some "auto" }

/-! ## OpenAI-compatible adapter: inbound response translation -/

/-- A `function` object inside a `tool_calls` entry. -/
structure OAIFunctionFragment where
  name : Option String
  arguments : Option String

/-- One `tool_calls` entry of an OpenAI response or stream chunk. -/
structure OAIToolCallDelta where
  index : Option Nat
  id : Option String
  type : Option String
  function : Option OAIFunctionFragment

/-- The `message` / `delta` object of one OpenAI choice. -/
structure OAIMsgLike where
  content : Option String
  tool_calls : Option (List OAIToolCallDelta)

/-- One OpenAI choice. -/
structure OAIChoice where
  delta : Option OAIMsgLike
  message : Option OAIMsgLike
  finish_reason : Option String

/-- The parsed body of one OpenAI response / stream chunk (usage elided). -/
structure OAIData where
  choices : List OAIChoice

/-- Entry of the streaming tool-call accumulator map. -/
structure OAIAccEntry where
  id : String
  name : String
  arguments : String

/-- Per-stream mutable state: `id → accumulator` and `index → id` maps. -/
structure OAIStreamState where
  acc : List (String × OAIAccEntry)
  indexToId : List (Nat × String)

/-- The empty per-stream state created at stream start. -/
def initOAIState : OAIStreamState := { acc := [], indexToId := [] }

/-- Streaming branch for one `tool_calls` entry: record the `index → id`
mapping when an id is present, resolve the call id, and append name/argument
fragments to that call's accumulator. Mirrors the `isStream` branch of
`convertFromOpenAIFormat` exactly, including JS truthiness checks. -/
def oaiAccumulate (tc : OAIToolCallDelta) (st : OAIStreamState) :
    OAIStreamState :=
  match tc.function with
  | none => st
  | some fn =>
      let index := tc.index.getD 0
      let indexToId :=
        match truthyStr tc.id with
        | some i => mapSet st.indexToId index i
        | none => st.indexToId
      let callId :=
        jsOr (mapFind indexToId index)
          (jsOr tc.id ("call_" ++ toString index))
      let entry :=
        match mapFind st.acc callId with
        | some e => e
        | none => { id := callId, name := jsOr fn.name "", arguments := "" }
      let entry :=
        match truthyStr fn.name with
        | some n => { entry with name := n }
        | none => entry
      let entry :=
        match truthyStr fn.arguments with
        | some a => { entry with arguments := entry.arguments ++ a }
        | none => entry
      { acc := mapSet st.acc callId entry, indexToId := indexToId }

/-- Non-streaming conversion of one `tool_calls` entry: parse the stringified
arguments, falling back to the empty object when the parse fails (or when the
arguments are absent: `toolCall.function.arguments || {}`). -/
def oaiConvertToolCall (tc : OAIToolCallDelta) : Option UFunctionCall :=
  match tc.function with
  | none => none
  | some fn =>
      if tc.type = some "function" then
        some
          { id := tc.id
            name := fn.name
            args := some
              (match fn.arguments with
               | some s =>
                   match Json.parse s with
                   | some j => j
                   | none => Json.obj []
               | none => Json.obj []) }
      else none

/-- `convertFromOpenAIFormat`, non-streaming mode: requires a first choice
(throws `'No choices in response'` otherwise), extracts the message text,
converts `tool_calls` entries of type `function`, and builds the unified
response unit. -/
def convertFromOpenAIFormatNonStream (data : OAIData) :
    Except String GenResponse :=
  match data.choices.head? with
  | none => Except.error "No choices in response"
  | some choice =>
      let text := jsOr (choice.message.bind (fun m => m.content)) ""
      let tcs := (choice.message.bind (fun m => m.tool_calls)).getD []
      let functionCalls := tcs.filterMap oaiConvertToolCall
      Except.ok
        { parts := [{ thought := false, text := some text }]
          finishReason := jsOr choice.finish_reason "STOP"
          functionCalls := functionCalls }

/-- `convertFromOpenAIFormat`, streaming mode: requires a first choice, folds
every `tool_calls` entry into the accumulator (never emitting function calls),
and yields a text-only unit when the delta carries non-empty content. -/
def convertFromOpenAIFormatStream (data : OAIData) (st : OAIStreamState) :
    Except String (Option GenResponse × OAIStreamState) :=
  match data.choices.head? with
  | none => Except.error "No choices in response"
  | some choice =>
      let text := jsOr (choice.delta.bind (fun d => d.content)) ""
      let tcs := (choice.delta.bind (fun d => d.tool_calls)).getD []
      let st := tcs.foldl (fun s tc => oaiAccumulate tc s) st
      if text = "" then Except.ok (none, st)
      else
        Except.ok
          (some
            { parts := [{ thought := false, text := some text }]
              finishReason := jsOr choice.finish_reason "STOP"
              functionCalls := [] }, st)

/-- Accumulator entry to completed function-call descriptor. -/
def oaiAccToFunctionCall (e : OAIAccEntry) : UFunctionCall :=
  { id := some e.id, name := some e.name,
    args := some (parseArgsOrEmpty e.arguments) }

/-- `convertAccumulatedToolCallsToGemini`: parse every accumulated argument
string (failure and empty string give the empty object) and emit one
`tool_calls`-terminated unit carrying all of them, `none` when there are no
entries. -/
def convertAccumulatedToolCallsToGemini (toolCalls : List OAIAccEntry) :
    Option GenResponse :=
  let functionCalls := toolCalls.map oaiAccToFunctionCall
  if functionCalls.isEmpty then none
  else
    some
      { parts := [{ thought := false, text := some "" }]
        finishReason := "tool_calls"
        functionCalls := functionCalls }

/-- One line of the OpenAI SSE stream, after splitting on newlines:
a parsed `data: ` chunk, the `data: [DONE]` terminator, or a line the loop
skips (non-`data: ` lines and chunks whose JSON parse throws). -/
inductive OAILine where
  | data (d : OAIData) : OAILine
  | done : OAILine
  | junk : OAILine

/-- The streaming loop of `generateContentStreamInternal` (OpenAI): text units
are yielded as they arrive, conversion errors are skipped, and on `[DONE]` the
accumulated tool calls are flushed as one final unit and the generator
returns. A stream that ends without `[DONE]` flushes nothing. -/
def runOAILines : List OAILine → OAIStreamState → List GenResponse
  | [], _ => []
  | OAILine.junk :: rest, st => runOAILines rest st
  | OAILine.done :: _, st =>
      if st.acc.isEmpty then []
      else
        match convertAccumulatedToolCallsToGemini (st.acc.map Prod.snd) with
        | some r => [r]
        | none => []
  | OAILine.data d :: rest, st =>
      match convertFromOpenAIFormatStream d st with
      | Except.error _ => runOAILines rest st
      | Except.ok (none, st') => runOAILines rest st'
      | Except.ok (some r, st') => r :: runOAILines rest st'

/-! ## Anthropic adapter: outbound request translation -/

/-- `typeof response === 'string' ? response : JSON.stringify(response)`. -/
def responseAsString (response : Json) : String :=
  match response with
  | Json.str s => s
  | other => Json.stringify other

/-- `typeof response === 'string' ? response : JSON.stringify(response, null, 2)`
used when building the tool-result summary text. -/
def responseAsStringIndent (response : Json) : String :=
  match response with
  | Json.str s => s
  | other => Json.stringifyIndent 0 other

/-- The `### name / fenced response` block appended per tool result inside the
summary text `convertToolResultsToTextForAnthropic` builds. -/
def anthToolResultBlock (p : UPart) : String :=
  match p with
  | .functionResponse _ name response =>
      "### " ++ name ++ "\n" ++ "```\n" ++ responseAsStringIndent response ++
        "\n```\n\n"
  | _ => ""

/-- Is this part a truthy `functionResponse` part? -/
def isFunctionResponsePart : UPart → Bool
  | .functionResponse _ _ _ => true
  | _ => false

/-- Is this part a text part with truthy (non-empty) text? -/
def isTruthyTextPart : UPart → Bool
  | .text s => s ≠ ""
  | _ => false

/-- Text of a truthy text part. -/
def textOfPart : UPart → Option String
  | .text s => if s = "" then none else some s
  | _ => none

/-- `convertToolResultsToTextForAnthropic`, per content: a user message whose
parts include tool results is replaced by one synthetic text part summarising
the results; everything else passes through unchanged. -/
def anthConvertToolResultsContent (c : UContent) : UContent :=
  if c.role = "user" ∧ c.parts.any isFunctionResponsePart then
    let textParts := c.parts.filterMap textOfPart
    let toolResults := c.parts.filter isFunctionResponsePart
    if toolResults.isEmpty then c
    else
      let lead :=
        if textParts.isEmpty then ""
        else String.intercalate "\n" textParts ++ "\n\n"
      let summary :=
        lead ++ "## Tool Execution Completed\n\n" ++
          "The following tools have been executed successfully:\n\n" ++
          String.join (toolResults.map anthToolResultBlock) ++
          "**Task completed successfully.** Please provide a summary of these results and any insights."
      { c with parts := [UPart.text summary] }
  else c

/-- `convertToolResultsToTextForAnthropic` over the whole history. -/
def convertToolResultsToTextForAnthropic (contents : List UContent) :
    List UContent :=
  contents.map anthConvertToolResultsContent

/-- One block of an outbound Anthropic message's `content` array.
`toolResult` mirrors the `tool_result` type the code checks for but never
constructs in this function. -/
inductive AnthContentItem where
  | text (s : String) : AnthContentItem
  | toolUse (id : Option String) (name : String) (input : Json) :
      AnthContentItem
  | toolResult : AnthContentItem

/-- Per-part conversion inside `convertContentsToAnthropicMessages`: truthy
text goes through, tool results become a readable text fallback, function
calls become `tool_use` blocks, and anything else is stringified. -/
def anthItemOfPart (p : UPart) : AnthContentItem :=
  match p with
  | .text s =>
      if s = "" then AnthContentItem.text (Json.stringify (partToJson p))
      else AnthContentItem.text s
  | .functionResponse _ name response =>
      AnthContentItem.text
        ("Tool result from " ++ name ++ ": " ++ responseAsString response)
  | .functionCall id name args => AnthContentItem.toolUse id name args
  | .inlineData _ => AnthContentItem.text (Json.stringify (partToJson p))

/-- Does the content array carry a text item with non-blank text?
(`item.type === 'text' && item.text?.trim()`) -/
def anthHasText (items : List AnthContentItem) : Bool :=
  items.any fun i =>
    match i with
    | AnthContentItem.text s => s.trim ≠ ""
    | _ => false

/-- Does the content array carry a `tool_result` item? -/
def anthHasToolResult (items : List AnthContentItem) : Bool :=
  items.any fun i =>
    match i with
    | AnthContentItem.toolResult => true
    | _ => false

/-- One outbound Anthropic message. -/
structure AnthMessage where
  role : String
  content : List AnthContentItem

/-- Per-content message construction of `convertContentsToAnthropicMessages`:
empty content arrays yield `none` (the message is dropped), user messages
with only tool results get a leading text item, and the role is mapped
`model → assistant`, everything else → `user`. -/
def anthMessageOfContent (c : UContent) : Option AnthMessage :=
  let items := c.parts.map anthItemOfPart
  if items.isEmpty then none
  else
    let items :=
      if c.role = "user" ∧ ¬anthHasText items ∧ anthHasToolResult items then
        AnthContentItem.text "Here are the tool results:" :: items
      else items
    some
      { role := if c.role = "model" then "assistant" else "user"
        content := items }

/-- One Anthropic tool schema entry (`{name, description, input_schema}`). -/
structure AnthToolSchema where
  name : String
  description : String
  input_schema : Json

/-- The outbound Anthropic request (fields the conversion constructs; numeric
sampling fields elided). -/
structure AnthRequest where
  model : String
  messages : List AnthMessage
  tools : List AnthToolSchema

/-- Flatten the internal tool list to Anthropic tool schemas. -/
def anthToolsOfConfig (request : GenRequest) : List AnthToolSchema :=
  match request.config with
  | none => []
  | some cfg =>
      (cfg.tools.map (fun t => t.functionDeclarations.map
        (fun fd =>
          { name := fd.name
            description := fd.description.getD ""
            input_schema := fd.parameters.getD
              (Json.obj [("type", Json.str "object"),
                         ("properties", Json.obj [])]) }))).flatten

/-- `convertContentsToAnthropicMessages`: for schema-constrained JSON requests
the instruction is prepended to the first message when it is a user message;
every content is mapped to at most one message and empty ones are dropped. -/
def convertContentsToAnthropicMessages (contents : List UContent)
    (request : GenRequest) (cfg : AdapterConfig) : AnthRequest :=
  let processed :=
    match wantsJsonOutput request with
    | some schema =>
        (match contents with
         | [] => []
         | c0 :: rest =>
             if c0.role = "user" then
               { c0 with
                 parts := UPart.text (jsonInstructionFor schema) :: c0.parts }
                 :: rest
             else c0 :: rest)
    | none => contents
  { model := jsOr request.model cfg.model
    messages := processed.filterMap anthMessageOfContent
    tools := anthToolsOfConfig request }

/-- `convertToAnthropicFormat`: tool results become text summaries, then the
history is converted to Anthropic messages. -/
def convertToAnthropicFormat (request : GenRequest) (cfg : AdapterConfig) :
    AnthRequest :=
  convertContentsToAnthropicMessages
    (convertToolResultsToTextForAnthropic request.contents) request cfg

/-! ## Anthropic adapter: inbound streaming translation -/

/-- The `content_block` object of a `content_block_start` event. -/
structure AnthContentBlock where
  type : String
  id : String
  name : String

/-- The `delta` object of a `content_block_delta` event (`pjson` models the
wire field `partial_json`). -/
structure AnthDeltaObj where
  type : String
  text : Option String
  pjson : Option String

/-- One parsed Anthropic streaming event (`type` plus the fields the handler
reads). -/
structure AnthStreamEvent where
  type : String
  index : Option Nat
  content_block : Option AnthContentBlock
  delta : Option AnthDeltaObj

/-- Entry of the Anthropic streaming tool-call accumulator map, keyed by
`"index_<blockIndex>"`. -/
structure AnthAccEntry where
  id : String
  name : String
  input : String

/-- The Anthropic per-stream accumulator map. -/
def AnthAcc : Type := List (String × AnthAccEntry)

/-- Append a partial-JSON fragment to the accumulator entry whose key equals
`indexKey`, leaving other entries unchanged (the handler's `for … break`
loop over `Map.entries()`; keys are unique, so only the match is updated). -/
def anthAppendAtKey (acc : List (String × AnthAccEntry)) (indexKey : String)
    (pjson : String) : List (String × AnthAccEntry) :=
  match acc with
  | [] => []
  | (k, e) :: rest =>
      if k = indexKey then (k, { e with input := e.input ++ pjson }) :: rest
      else (k, e) :: anthAppendAtKey rest indexKey pjson

/-- A text-only streaming unit (`createStreamingTextResponse`). -/
def createStreamingTextResponse (text : String) : GenResponse :=
  { parts := [{ thought := false, text := some text }]
    finishReason := "STOP"
    functionCalls := [] }

/-- `handleAnthropicStreamingEvent`: text deltas are emitted immediately,
`input_json_delta` fragments are appended to the accumulator keyed by block
index, `content_block_start` with a `tool_use` block registers an accumulator
entry, and every other event (including `message_stop`) yields nothing. -/
def handleAnthropicStreamingEvent (data : AnthStreamEvent)
    (acc : List (String × AnthAccEntry)) :
    Option GenResponse × List (String × AnthAccEntry) :=
  if data.type = "content_block_delta" then
    match data.delta with
    | some d =>
        if d.type = "text_delta" then
          (some (createStreamingTextResponse (jsOr d.text "")), acc)
        else if d.type = "input_json_delta" then
          let blockIndex := data.index.getD 0
          let pjson := jsOr d.pjson ""
          let indexKey := "index_" ++ toString blockIndex
          (none, anthAppendAtKey acc indexKey pjson)
        else (none, acc)
    | none => (none, acc)
  else if data.type = "content_block_start" then
    match data.content_block with
    | some block =>
        if block.type = "tool_use" then
          let blockIndex := data.index.getD 0
          let indexKey := "index_" ++ toString blockIndex
          (none,
            mapSet acc indexKey
              { id := block.id, name := block.name, input := "" })
        else (none, acc)
    | none => (none, acc)
  else (none, acc)

/-- Accumulator entry to completed function-call descriptor (Anthropic). -/
def anthAccToFunctionCall (e : AnthAccEntry) : UFunctionCall :=
  { id := some e.id, name := some e.name,
    args := some (parseArgsOrEmpty e.input) }

/-- `convertAccumulatedAnthropicToolCallsToGemini`: parse every accumulated
input string (failure and empty string give the empty object) and emit one
`tool_calls`-terminated unit, `none` when there are no entries. -/
def convertAccumulatedAnthropicToolCallsToGemini
    (toolCalls : List AnthAccEntry) : Option GenResponse :=
  let functionCalls := toolCalls.map anthAccToFunctionCall
  if functionCalls.isEmpty then none
  else
    some
      { parts := [{ thought := false, text := some "" }]
        finishReason := "tool_calls"
        functionCalls := functionCalls }

/-- One line of the Anthropic SSE stream: an `event: ` line (skipped), a
parsed `data: ` event, or a line the loop skips. -/
inductive AnthLine where
  | event : AnthLine
  | data (e : AnthStreamEvent) : AnthLine
  | junk : AnthLine

/-- The streaming loop of `generateContentStreamInternal` (Anthropic): events
are handled one by one, and when the reader reports end of stream the
accumulated tool calls are flushed as one final unit. -/
def runAnthLines : List AnthLine → List (String × AnthAccEntry) →
    List GenResponse
  | [], acc =>
      if acc.isEmpty then []
      else
        match convertAccumulatedAnthropicToolCallsToGemini
            (acc.map Prod.snd) with
        | some r => [r]
        | none => []
  | AnthLine.event :: rest, acc => runAnthLines rest acc
  | AnthLine.junk :: rest, acc => runAnthLines rest acc
  | AnthLine.data e :: rest, acc =>
      match handleAnthropicStreamingEvent e acc with
      | (none, acc') => runAnthLines rest acc'
      | (some r, acc') => r :: runAnthLines rest acc'

/-- An embedding request (the Anthropic adapter ignores it). -/
structure EmbedRequest where
  model : Option String
  contents : List UContent

/-- An embedding response. -/
structure EmbedResponse where
  embeddings : List (List Int)

/-- `AnthropicContentGenerator.embedContent`: unconditionally throws. -/
def anthropicEmbedContent (_request : EmbedRequest) :
    Except String EmbedResponse :=
  Except.error "Anthropic does not support embeddings"

/-! ## Turn engine (`turn.ts`) -/

/-- A tool-call request descriptor (`ToolCallRequestInfo`). -/
structure ToolCallRequestInfo where
  callId : String
  name : String
  args : Json
  isClientInitiated : Bool

/-- The thought summary extracted from a thought part. -/
structure ThoughtSummary where
  subject : String
  description : String

/-- The Turn engine's emitted events (the constructors the engine itself
produces in `run`; executor-produced event kinds are not emitted here). -/
inductive TurnEvent where
  | content (value : String) : TurnEvent
  | thought (value : ThoughtSummary) : TurnEvent
  | toolCallRequest (value : ToolCallRequestInfo) : TurnEvent
  | userCancelled : TurnEvent
  | error (message : String) (status : Option Nat) : TurnEvent

/-- Modelled from the spec: `getResponseText`
(`utils/generateContentResponseUtilities.ts` is not under src/). Per §4.4 a
unit "carries non-empty answer text" when its candidate parts do; the helper
concatenates the text of the first candidate's parts. -/
def getResponseText (resp : GenResponse) : String :=
  String.join (resp.parts.filterMap (fun p => p.text))

/-- The thought-subject extraction `rawText.match(/\*\*(.*?)\*\*/s)` together
with the removal of the first match: `splitOn "**"` yields the segments
between occurrences of the delimiter, so a match exists exactly when there
are at least two delimiters, the subject is the first enclosed segment, and
the description is the text with the first `**…**` span removed. -/
def parseThought (rawText : String) : ThoughtSummary :=
  match rawText.splitOn "**" with
  | s0 :: s1 :: s2 :: rest =>
      { subject := s1.trim
        description := (s0 ++ String.intercalate "**" (s2 :: rest)).trim }
  | _ => { subject := "", description := rawText.trim }

/-- Turn-engine state threaded through one run: the pending tool-call list
plus the supply of `(Date.now(), Math.random().toString(16).slice(2))` draws
observed by successive id backfills. -/
structure TurnState where
  pending : List ToolCallRequestInfo
  supply : List (Nat × String)

/-- The backfilled call id
`${fnCall.name}-${Date.now()}-${Math.random().toString(16).slice(2)}`. -/
def backfillCallId (name : String) (t : Nat) (r : String) : String :=
  name ++ "-" ++ Nat.repr t ++ "-" ++ r

/-- JS template interpolation of an optional string (absent → "undefined"). -/
def interpolate (s : Option String) : String :=
  match s with
  | some v => v
  | none => "undefined"

/-- `Turn.handlePendingFunctionCall`: backfill a missing id from the next
`(Date.now(), Math.random())` draw, default the name and args, append the
request to the pending list and emit a `ToolCallRequest` event. -/
def handlePendingFunctionCall (fnCall : UFunctionCall) (st : TurnState) :
    TurnEvent × TurnState :=
  let (callId, supply) :=
    match fnCall.id with
    | some i => (i, st.supply)
    | none =>
        match st.supply with
        | (t, r) :: rest => (backfillCallId (interpolate fnCall.name) t r, rest)
        | [] => (backfillCallId (interpolate fnCall.name) 0 "", [])
  let name := jsOr fnCall.name "undefined_tool_name"
  let args := fnCall.args.getD (Json.obj [])
  let req : ToolCallRequestInfo :=
    { callId := callId, name := name, args := args,
      isClientInitiated := false }
  (TurnEvent.toolCallRequest req, { pending := st.pending ++ [req],
                                    supply := supply })

/-- The `for (const fnCall of functionCalls)` loop of `Turn.run`: one
ToolCallRequest event per completed function call, in order, threading the
turn state. -/
def turnEmitCalls : List UFunctionCall → TurnState →
    List TurnEvent × TurnState
  | [], st => ([], st)
  | fc :: rest, st =>
      let q := handlePendingFunctionCall fc st
      let p := turnEmitCalls rest q.2
      (q.1 :: p.1, p.2)

/-- The non-thought part of unit processing: a Content event when the unit
carries non-empty text, then one ToolCallRequest event per function call. -/
def turnProcessUnitBody (resp : GenResponse) (st : TurnState) :
    List TurnEvent × TurnState :=
  let text := getResponseText resp
  let textEvents :=
    if text = "" then [] else [TurnEvent.content text]
  let p := turnEmitCalls resp.functionCalls st
  (textEvents ++ p.1, p.2)

/-- Events produced by processing one response unit in `Turn.run`: a thought
part short-circuits to a Thought event; otherwise non-empty text yields a
Content event and every completed function call yields a ToolCallRequest. -/
def turnProcessUnit (resp : GenResponse) (st : TurnState) :
    List TurnEvent × TurnState :=
  match resp.parts.head? with
  | some p =>
      if p.thought then
        ([TurnEvent.thought (parseThought (p.text.getD ""))], st)
      else turnProcessUnitBody resp st
  | none => turnProcessUnitBody resp st

/-- The unit-consuming loop of `Turn.run` over a stream of response units.
`aborted n` is the value of `signal.aborted` observed at the cancellation
check that precedes processing of unit `n` (zero-based): when it is true the
engine emits a single `UserCancelled` event and returns without reading
further units. -/
def turnRunUnits (units : List GenResponse) (aborted : Nat → Bool)
    (n : Nat) (st : TurnState) : List TurnEvent :=
  match units with
  | [] => []
  | u :: rest =>
      if aborted n then [TurnEvent.userCancelled]
      else
        let (evs, st') := turnProcessUnit u st
        evs ++ turnRunUnits rest aborted (n + 1) st'

/-- `Turn.run` with a cancellation token that becomes (and stays) signaled
after `k` units have been processed (`abortAfter = some k`), or never
(`abortAfter = none`). -/
def turnRun (units : List GenResponse) (abortAfter : Option Nat)
    (st : TurnState) : List TurnEvent :=
  turnRunUnits units
    (fun n => match abortAfter with
              | some k => decide (k ≤ n)
              | none => false) 0 st

/-! ## Tool call executor (`executeToolCall`) -/

/-- Result returned by a tool's `execute`. -/
structure UToolResult where
  llmContent : Json
  returnDisplay : String

/-- A registered tool: a name and an `execute` that may raise
(modelled as `Except` with the thrown message). -/
structure RegisteredTool where
  name : String
  execute : Json → Except String UToolResult

/-- Tool registry lookup by name (`toolRegistry.getTool(name)`; the registry
class itself lives outside src/ and is specified as a name-keyed lookup). -/
def getTool (registry : List RegisteredTool) (name : String) :
    Option RegisteredTool :=
  registry.find? (fun t => t.name = name)

/-- The executor's structured response (`ToolCallResponseInfo`; the `Error`
object is modelled by its message). -/
structure ToolCallResponseInfo where
  callId : String
  responseParts : List UPart
  resultDisplay : Option String
  error : Option String

/-- One telemetry record (`logToolCall` fields the claims concern). -/
structure TelemetryEvent where
  function_name : String
  success : Bool
  error : Option String

/-- Modelled from the spec: `convertToFunctionResponse`
(`coreToolScheduler.ts` is not under src/). Per §4.5 it converts the raw tool
output into the wire-level function-response shape for the given call. -/
def convertToFunctionResponse (name : String) (callId : String)
    (llmContent : Json) : List UPart :=
  [UPart.functionResponse (some callId) name
    (Json.obj [("output", llmContent)])]

/-- The function-response part both failure paths of `executeToolCall`
synthesize: `{functionResponse: {id, name, response: {error: message}}}`. -/
def errorResponseParts (request : ToolCallRequestInfo) (message : String) :
    List UPart :=
  [UPart.functionResponse (some request.callId) request.name
    (Json.obj [("error", Json.str message)])]

/-- `executeToolCall`: resolve the tool by name; unknown tools and raising
tools produce the same structured error response (never an unhandled
failure), successful execution produces a function response from the tool's
output. Exactly one telemetry record is produced per invocation. -/
def executeToolCall (request : ToolCallRequestInfo)
    (registry : List RegisteredTool) :
    ToolCallResponseInfo × TelemetryEvent :=
  match getTool registry request.name with
  | none =>
      let message := "Tool \"" ++ request.name ++ "\" not found in registry."
      ({ callId := request.callId
         responseParts := errorResponseParts request message
         resultDisplay := some message
         error := some message },
       { function_name := request.name, success := false,
         error := some message })
  | some tool =>
      match tool.execute request.args with
      | Except.ok toolResult =>
          ({ callId := request.callId
             responseParts :=
               convertToFunctionResponse request.name request.callId
                 toolResult.llmContent
             resultDisplay := some toolResult.returnDisplay
             error := none },
           { function_name := request.name, success := true, error := none })
      | Except.error message =>
          ({ callId := request.callId
             responseParts := errorResponseParts request message
             resultDisplay := some message
             error := some message },
           { function_name := request.name, success := false,
             error := some message })

/-! ## Adapter registry (`adapters/index.ts`) -/

/-- The adapter `createCustomContentGenerator` resolves to: one of the
built-in generator classes, or an externally registered constructor
(identified here by a tag). -/
inductive GeneratorChoice where
  | openaiCompatible : GeneratorChoice
  | anthropic : GeneratorChoice
  | azure : GeneratorChoice
  | custom (cls : String) : GeneratorChoice

/-- The built-in selector values matched before the registry is consulted. -/
def builtinSelectors : List String :=
  ["openai-compatible", "local-llm", "anthropic", "azure"]

/-- `createCustomContentGenerator`: built-in selectors resolve by exact
match (`local-llm` shares the OpenAI-compatible class); only the `default`
branch consults the global registry, and an unknown selector without a
registered constructor fails naming the selector. -/
def createCustomContentGenerator (authType : String)
    (registry : List (String × String)) : Except String GeneratorChoice :=
  if authType = "openai-compatible" then
    Except.ok GeneratorChoice.openaiCompatible
  else if authType = "local-llm" then
    Except.ok GeneratorChoice.openaiCompatible
  else if authType = "anthropic" then
    Except.ok GeneratorChoice.anthropic
  else if authType = "azure" then
    Except.ok GeneratorChoice.azure
  else
    match mapFind registry authType with
    | some cls => Except.ok (GeneratorChoice.custom cls)
    | none =>
        Except.error
          ("No content generator available for auth type: " ++ authType)

/-! ## Claim theorems -/

/-- Claim C9: every embedding request against the Anthropic adapter fails
with the explicit unsupported-embeddings error; the adapter never returns an
embedding result (in particular never a zero vector or an empty result). -/
theorem c9_anthropic_embed_unsupported (request : EmbedRequest) :
    anthropicEmbedContent request =
      Except.error "Anthropic does not support embeddings" := rfl

/-- Claim C10: the four built-in selectors resolve to their built-in adapter
classes regardless of the registry's contents (registrations under a built-in
selector are shadowed); the registry is consulted only for other selectors,
and an unknown unregistered selector fails with an error naming it. -/
theorem c10_builtin_selectors_shadow_registry
    (registry : List (String × String)) :
    createCustomContentGenerator "openai-compatible" registry =
        Except.ok GeneratorChoice.openaiCompatible ∧
    createCustomContentGenerator "local-llm" registry =
        Except.ok GeneratorChoice.openaiCompatible ∧
    createCustomContentGenerator "anthropic" registry =
        Except.ok GeneratorChoice.anthropic ∧
    createCustomContentGenerator "azure" registry =
        Except.ok GeneratorChoice.azure ∧
    ∀ s, s ∉ builtinSelectors →
      createCustomContentGenerator s registry =
        (match mapFind registry s with
         | some cls => Except.ok (GeneratorChoice.custom cls)
         | none =>
             Except.error
               ("No content generator available for auth type: " ++ s)) := by
  refine ⟨rfl, rfl, rfl, rfl, ?_⟩
  intro s hs
  simp only [builtinSelectors, List.mem_cons, List.not_mem_nil, or_false,
    not_or] at hs
  obtain ⟨h1, h2, h3, h4⟩ := hs
  simp only [createCustomContentGenerator, if_neg h1, if_neg h2, if_neg h3,
    if_neg h4]

/-- Witness for C10: a selector outside the built-in set resolves through the
registry, and an unknown one fails naming the selector. -/
theorem c10_witness :
    createCustomContentGenerator "my-provider" [("my-provider", "MyGen")] =
        Except.ok (GeneratorChoice.custom "MyGen") ∧
    createCustomContentGenerator "nope" [("my-provider", "MyGen")] =
        Except.error "No content generator available for auth type: nope" := by
  have h := (c10_builtin_selectors_shadow_registry
    [("my-provider", "MyGen")]).2.2.2.2
  exact ⟨h "my-provider" (by decide), h "nope" (by decide)⟩

/-- The Anthropic stream fixture of claim C2: `content_block_start`
(index 0, `tool_use`, id `t1`, name `lookup`), two `input_json_delta`
fragments, then `message_stop`. -/
def anthC2Stream : List AnthLine :=
  [AnthLine.data
      { type := "content_block_start", index := some 0,
        content_block := some { type := "tool_use", id := "t1",
                                name := "lookup" },
        delta := none },
   AnthLine.data
      { type := "content_block_delta", index := some 0,
        content_block := none,
        delta := some { type := "input_json_delta", text := none,
                        pjson := some "\x7b\"x\":1" } },
   AnthLine.data
      { type := "content_block_delta", index := some 0,
        content_block := none,
        delta := some { type := "input_json_delta", text := none,
                        pjson := some "\x7d" } },
   AnthLine.data
      { type := "message_stop", index := none, content_block := none,
        delta := none }]

/-- Claim C2: on the Anthropic stream `content_block_start` (index 0,
tool_use, id "t1", name "lookup"), `input_json_delta` fragments `{"x":1` and
`}`, then `message_stop`, the adapter emits exactly one unit, the end-of-
stream flush, carrying exactly one completed function call with name
"lookup", id "t1", and args `{"x": 1}` — nothing is emitted earlier. -/
theorem c2_anthropic_fragmented_tool_call :
    runAnthLines anthC2Stream [] =
      [{ parts := [{ thought := false, text := some "" }]
         finishReason := "tool_calls"
         functionCalls := [{ id := some "t1", name := some "lookup",
                             args := some (Json.obj [("x", Json.num 1)]) }] }]
    := rfl

/-- Claim C5: the tool executor always returns a structured response: an
unknown tool name yields a function-response part carrying
`{error: Tool "<name>" not found in registry.}` with a populated error field
and the request's callId; a tool whose execute raises yields the same shape
carrying the raised message. (The executor is a total function: it never
fails to return.) -/
theorem c5_executor_structured_errors (request : ToolCallRequestInfo)
    (registry : List RegisteredTool) :
    (getTool registry request.name = none →
      (executeToolCall request registry).1 =
        { callId := request.callId
          responseParts := [UPart.functionResponse (some request.callId)
            request.name
            (Json.obj [("error", Json.str ("Tool \"" ++ request.name ++
              "\" not found in registry."))])]
          resultDisplay := some ("Tool \"" ++ request.name ++
            "\" not found in registry.")
          error := some ("Tool \"" ++ request.name ++
            "\" not found in registry.") }) ∧
    (∀ tool message, getTool registry request.name = some tool →
      tool.execute request.args = Except.error message →
      (executeToolCall request registry).1 =
        { callId := request.callId
          responseParts := [UPart.functionResponse (some request.callId)
            request.name (Json.obj [("error", Json.str message)])]
          resultDisplay := some message
          error := some message }) := by
  constructor
  · intro h
    simp only [executeToolCall, h, errorResponseParts]
  · intro tool message h hexec
    simp only [executeToolCall, h, hexec, errorResponseParts]

/-- Witness for C5: the unregistered tool name "foo" on an empty registry,
and a raising tool, both produce the structured error response. -/
theorem c5_witness :
    (executeToolCall { callId := "call-1", name := "foo",
                       args := Json.obj [],
                       isClientInitiated := false } []).1 =
      { callId := "call-1"
        responseParts := [UPart.functionResponse (some "call-1") "foo"
          (Json.obj [("error",
            Json.str "Tool \"foo\" not found in registry.")])]
        resultDisplay := some "Tool \"foo\" not found in registry."
        error := some "Tool \"foo\" not found in registry." } :=
  (c5_executor_structured_errors
    { callId := "call-1", name := "foo", args := Json.obj [],
      isClientInitiated := false } []).1 rfl

/-- Claim C6: an accumulated or single-shot tool-call argument string that
fails to parse as JSON still yields the function-call descriptor with the
empty object substituted for its args, in both adapters, and the conversion
never drops a call or aborts: the flush converters succeed on every
non-empty accumulator, mapping each entry through the parse-or-empty
decoding, and the non-streaming OpenAI conversion keeps a malformed call
with empty args. -/
theorem c6_malformed_args_empty_object :
    (∀ s, Json.parse s = none → parseArgsOrEmpty s = Json.obj []) ∧
    (∀ toolCalls : List OAIAccEntry, toolCalls ≠ [] →
      convertAccumulatedToolCallsToGemini toolCalls =
        some { parts := [{ thought := false, text := some "" }]
               finishReason := "tool_calls"
               functionCalls := toolCalls.map oaiAccToFunctionCall }) ∧
    (∀ toolCalls : List AnthAccEntry, toolCalls ≠ [] →
      convertAccumulatedAnthropicToolCallsToGemini toolCalls =
        some { parts := [{ thought := false, text := some "" }]
               finishReason := "tool_calls"
               functionCalls := toolCalls.map anthAccToFunctionCall }) ∧
    (∀ (tc : OAIToolCallDelta) (fn : OAIFunctionFragment) (s : String),
      tc.function = some fn → fn.arguments = some s →
      tc.type = some "function" → Json.parse s = none →
      oaiConvertToolCall tc =
        some { id := tc.id, name := fn.name,
               args := some (Json.obj []) }) := by
  refine ⟨?_, ?_, ?_, ?_⟩
  · intro s h
    unfold parseArgsOrEmpty
    split
    · rfl
    · rw [h]
  · intro toolCalls h
    unfold convertAccumulatedToolCallsToGemini
    rw [if_neg]
    simp only [List.isEmpty_eq_true, List.map_eq_nil_iff]
    exact h
  · intro toolCalls h
    unfold convertAccumulatedAnthropicToolCallsToGemini
    rw [if_neg]
    simp only [List.isEmpty_eq_true, List.map_eq_nil_iff]
    exact h
  · intro tc fn s hfn hargs htype hparse
    unfold oaiConvertToolCall
    rw [hfn]
    simp [htype, hargs, hparse]

/-- Witness for C6: the malformed argument string `{bad` fails to parse and
both flush paths and the single-shot path substitute the empty object. -/
theorem c6_witness :
    parseArgsOrEmpty "\x7bbad" = Json.obj [] ∧
    convertAccumulatedToolCallsToGemini
        [{ id := "c1", name := "f", arguments := "\x7bbad" }] =
      some { parts := [{ thought := false, text := some "" }]
             finishReason := "tool_calls"
             functionCalls := [{ id := some "c1", name := some "f",
                                 args := some (Json.obj []) }] } ∧
    oaiConvertToolCall
        { index := none, id := some "c1", type := some "function",
          function := some { name := some "f",
                             arguments := some "\x7bbad" } } =
      some { id := some "c1", name := some "f",
             args := some (Json.obj []) } := by
  refine ⟨c6_malformed_args_empty_object.1 "\x7bbad" rfl, ?_, ?_⟩
  · have h := c6_malformed_args_empty_object.2.1
      [{ id := "c1", name := "f", arguments := "\x7bbad" }] (by simp)
    rw [h]
    rfl
  · exact c6_malformed_args_empty_object.2.2.2
      { index := none, id := some "c1", type := some "function",
        function := some { name := some "f", arguments := some "\x7bbad" } }
      { name := some "f", arguments := some "\x7bbad" } "\x7bbad"
      rfl rfl rfl rfl

/-- A message produced by `anthMessageOfContent` never has empty content:
empty item lists yield `none`, and the tool-result guard only prepends. -/
theorem anth_message_content_ne_nil (c : UContent) (m : AnthMessage)
    (h : anthMessageOfContent c = some m) : m.content ≠ [] := by
  unfold anthMessageOfContent at h
  by_cases he : (c.parts.map anthItemOfPart).isEmpty
  · rw [if_pos he] at h
    exact absurd h (by simp)
  · rw [if_neg he] at h
    simp only at h
    injection h with h
    subst h
    simp only
    split
    · simp
    · simpa [List.isEmpty_iff] using he

/-- The history of claim C7's counterexample: one zero-part user Content. -/
def c7cexRequest : GenRequest :=
  { model := none, contents := [{ role := "user", parts := [] }],
    config := none }

/-- Counterexample to claim C7: the OpenAI-compatible adapter does not drop
a zero-part Content — it serializes it as a message with empty string
content, so the outbound message list is non-empty. -/
theorem c7_counterexample :
    (convertToOpenAIFormat c7cexRequest { model := "m" }).messages =
      [{ role := "user", content := "" }] ∧
    ¬ ((convertToOpenAIFormat c7cexRequest { model := "m" }).messages = [])
    := by
  refine ⟨rfl, ?_⟩
  intro h
  rw [show (convertToOpenAIFormat c7cexRequest { model := "m" }).messages =
      [{ role := "user", content := "" }] from rfl] at h
  exact List.noConfusion h

/-- Claim C7 (amended): the Anthropic adapter drops every Content whose
parts serialize to no message content (in particular every zero-part
Content): no outbound Anthropic message has an empty content array. The
OpenAI-compatible adapter instead serializes a zero-part Content as a
message with empty string content. -/
theorem c7_amended_empty_content (request : GenRequest)
    (cfg : AdapterConfig) :
    (∀ m ∈ (convertToAnthropicFormat request cfg).messages,
        m.content ≠ []) ∧
    (∀ c : UContent, c.parts = [] →
        oaiMessageOfContent c =
          { role := if c.role = "model" then "assistant" else c.role,
            content := "" }) := by
  constructor
  · intro m hm
    simp only [convertToAnthropicFormat,
      convertContentsToAnthropicMessages] at hm
    rcases List.mem_filterMap.mp hm with ⟨c, _, hc⟩
    exact anth_message_content_ne_nil c m hc
  · intro c h
    unfold oaiMessageOfContent
    rw [h]
    rfl

/-- The history of claim C8's counterexample: one system-role Content. -/
def c8cexRequest : GenRequest :=
  { model := none,
    contents := [{ role := "system", parts := [UPart.text "hi"] }],
    config := none }

/-- Counterexample to claim C8: the Anthropic adapter does not pass the
"system" role through — the serialized message's role is "user". -/
theorem c8_counterexample :
    ((convertToAnthropicFormat c8cexRequest { model := "m" }).messages.map
        (fun m => m.role)) = ["user"] ∧
    ¬ ("user" = "system") := ⟨rfl, by decide⟩

/-- Claim C8 (amended): the OpenAI-compatible adapter maps the internal
"model" role to "assistant" and passes every other role through unchanged;
the Anthropic adapter maps "model" to "assistant" and every other role
(including "system") to "user". -/
theorem c8_amended_role_mapping :
    (∀ c : UContent, (oaiMessageOfContent c).role =
        if c.role = "model" then "assistant" else c.role) ∧
    (∀ (c : UContent) (m : AnthMessage), anthMessageOfContent c = some m →
        m.role = if c.role = "model" then "assistant" else "user") := by
  constructor
  · intro c
    rfl
  · intro c m h
    unfold anthMessageOfContent at h
    by_cases he : (c.parts.map anthItemOfPart).isEmpty
    · rw [if_pos he] at h
      exact absurd h (by simp)
    · rw [if_neg he] at h
      simp only at h
      injection h with h
      subst h
      rfl

/-! ## Claim C1: OpenAI-compatible fragmented tool-call accumulation -/

/-- Strings are equal when their character data is. -/
theorem stringDataInjective {a b : String} (h : a.data = b.data) : a = b :=
  congrArg String.mk h

/-- Appending the empty string is the identity. -/
theorem stringAppendEmpty (s : String) : s ++ "" = s :=
  stringDataInjective (by rw [String.data_append]; simp)

/-- Prepending the empty string is the identity. -/
theorem stringEmptyAppend (s : String) : "" ++ s = s :=
  stringDataInjective (by rw [String.data_append]; simp)

/-- String append is associative. -/
theorem stringAppendAssoc (a b c : String) : a ++ b ++ c = a ++ (b ++ c) :=
  stringDataInjective (by simp [String.data_append])

/-- Concatenation of a list of fragments. -/
def concatFragments : List String → String
  | [] => ""
  | f :: fs => f ++ concatFragments fs

/-- The first stream chunk of one logical tool call: positional index 0, the
call id, and the function name (`{tool_calls:[{index, id, function:{name}}]}`). -/
def oaiStartChunk (id name : String) : OAIData :=
  { choices :=
      [{ delta :=
           some { content := none
                  tool_calls :=
                    some [{ index := some 0
                            id := some id
                            type := none
                            function := some { name := some name
                                               arguments := none } }] }
         message := none
         finish_reason := none }] }

/-- A follow-up chunk carrying one argument fragment for index 0
(`{tool_calls:[{index, function:{arguments}}]}`). -/
def oaiFragChunk (frag : String) : OAIData :=
  { choices :=
      [{ delta :=
           some { content := none
                  tool_calls :=
                    some [{ index := some 0
                            id := none
                            type := none
                            function := some { name := none
                                               arguments := some frag } }] }
         message := none
         finish_reason := none }] }

/-- A stream splitting one tool call's arguments across `frags.length`
chunks, terminated by `[DONE]`. -/
def oaiSingleToolCallStream (id name : String) (frags : List String) :
    List OAILine :=
  OAILine.data (oaiStartChunk id name) ::
    (frags.map (fun f => OAILine.data (oaiFragChunk f)) ++ [OAILine.done])

/-- Processing the opening chunk from the fresh stream state registers the
`index → id` mapping and an accumulator entry with empty arguments, and
yields nothing. -/
theorem oai_start_step (id name : String) (hid : id ≠ "") :
    convertFromOpenAIFormatStream (oaiStartChunk id name) initOAIState =
      Except.ok (none,
        { acc := [(id, { id := id, name := name, arguments := "" })],
          indexToId := [(0, id)] }) := by
  by_cases h : name = "" <;>
    simp [convertFromOpenAIFormatStream, oaiStartChunk, initOAIState,
      oaiAccumulate, truthyStr, jsOr, mapFind, mapSet, hid, h]

/-- Processing a fragment chunk appends the fragment to the accumulated
arguments of the call registered at index 0 and yields nothing. -/
theorem oai_frag_step (id : String) (e : OAIAccEntry) (frag : String)
    (hid : id ≠ "") :
    convertFromOpenAIFormatStream (oaiFragChunk frag)
        { acc := [(id, e)], indexToId := [(0, id)] } =
      Except.ok (none,
        { acc := [(id, { e with arguments := e.arguments ++ frag })],
          indexToId := [(0, id)] }) := by
  by_cases h : frag = ""
  · simp [convertFromOpenAIFormatStream, oaiFragChunk, oaiAccumulate,
      truthyStr, jsOr, mapFind, mapSet, hid, h, stringAppendEmpty]
  · simp [convertFromOpenAIFormatStream, oaiFragChunk, oaiAccumulate,
      truthyStr, jsOr, mapFind, mapSet, hid, h]

/-- Stepping the stream loop over a chunk that converts to no unit. -/
theorem runOAILines_data_none (d : OAIData) (rest : List OAILine)
    (st st' : OAIStreamState)
    (h : convertFromOpenAIFormatStream d st = Except.ok (none, st')) :
    runOAILines (OAILine.data d :: rest) st = runOAILines rest st' := by
  have e : runOAILines (OAILine.data d :: rest) st =
      match convertFromOpenAIFormatStream d st with
      | Except.error _ => runOAILines rest st
      | Except.ok (none, st₂) => runOAILines rest st₂
      | Except.ok (some r, st₂) => r :: runOAILines rest st₂ := rfl
  rw [e, h]

/-- Running the fragment chunks and the terminator from a state holding one
registered call flushes exactly one unit whose single function call carries
the parse of the concatenated arguments. -/
theorem oai_frag_run (id nm : String) (hid : id ≠ "") (frags : List String) :
    ∀ s : String,
      runOAILines
          (frags.map (fun f => OAILine.data (oaiFragChunk f)) ++
            [OAILine.done])
          { acc := [(id, { id := id, name := nm, arguments := s })],
            indexToId := [(0, id)] } =
        [{ parts := [{ thought := false, text := some "" }]
           finishReason := "tool_calls"
           functionCalls :=
             [{ id := some id
                name := some nm
                args := some
                  (parseArgsOrEmpty (s ++ concatFragments frags)) }] }] := by
  induction frags with
  | nil =>
      intro s
      simp only [List.map_nil, List.nil_append, concatFragments,
        stringAppendEmpty]
      simp [runOAILines, convertAccumulatedToolCallsToGemini,
        oaiAccToFunctionCall]
  | cons f fs ih =>
      intro s
      simp only [List.map_cons, List.cons_append]
      rw [runOAILines_data_none _ _ _ _
        (oai_frag_step id { id := id, name := nm, arguments := s } f hid)]
      rw [ih (s ++ f)]
      simp only [concatFragments, stringAppendAssoc]

/-- A unit yielded by the streaming conversion carries no function calls. -/
theorem oai_stream_unit_no_calls (d : OAIData) (st : OAIStreamState)
    (r : GenResponse) (st' : OAIStreamState)
    (h : convertFromOpenAIFormatStream d st = Except.ok (some r, st')) :
    r.functionCalls = [] := by
  unfold convertFromOpenAIFormatStream at h
  rcases hd : d.choices.head? with _ | choice
  · rw [hd] at h
    exact absurd h (by simp)
  · rw [hd] at h
    simp only at h
    split at h
    · exact absurd h (by simp)
    · injection h with h
      rw [Prod.mk.injEq] at h
      obtain ⟨h1, _⟩ := h
      injection h1 with h1
      subst h1
      rfl

/-- Before `[DONE]` is reached, no emitted unit carries a function call. -/
theorem runOAILines_no_done_no_calls :
    ∀ (lines : List OAILine) (st : OAIStreamState), OAILine.done ∉ lines →
      ∀ r ∈ runOAILines lines st, r.functionCalls = [] := by
  intro lines
  induction lines with
  | nil =>
      intro st _ r hr
      simp [runOAILines] at hr
  | cons l rest ih =>
      intro st hnd r hr
      have hnd' : OAILine.done ∉ rest := fun h =>
        hnd (List.mem_cons_of_mem _ h)
      cases l with
      | junk =>
          rw [show runOAILines (OAILine.junk :: rest) st =
              runOAILines rest st from rfl] at hr
          exact ih st hnd' r hr
      | done => exact absurd (List.mem_cons_self _ _) hnd
      | data d =>
          unfold runOAILines at hr
          rcases hc : convertFromOpenAIFormatStream d st with e | p
          · rw [hc] at hr
            exact ih st hnd' r hr
          · rcases p with ⟨ro, st'⟩
            rw [hc] at hr
            cases ro with
            | none => exact ih st' hnd' r hr
            | some r0 =>
                rcases List.mem_cons.mp hr with h | h
                · subst h
                  exact oai_stream_unit_no_calls d st r st' hc
                · exact ih st' hnd' r h

/-- Claim C1: an OpenAI-compatible stream splitting one logical tool call's
argument string across any number of chunks at any fragment boundaries
produces exactly one completed function-call unit for that call, carrying
the JSON parse of the concatenation of all fragments (empty object on parse
failure), emitted only at the `[DONE]` terminator; before `[DONE]` no unit
ever carries a function call, and the flush emits the accumulated entries in
insertion order. -/
theorem c1_openai_fragmented_tool_call (id nm : String)
    (frags : List String) (hid : id ≠ "") :
    (runOAILines (oaiSingleToolCallStream id nm frags) initOAIState =
      [{ parts := [{ thought := false, text := some "" }]
         finishReason := "tool_calls"
         functionCalls :=
           [{ id := some id
              name := some nm
              args := some (parseArgsOrEmpty (concatFragments frags)) }]
       }]) ∧
    (∀ (lines : List OAILine) (st : OAIStreamState),
      OAILine.done ∉ lines →
      ∀ r ∈ runOAILines lines st, r.functionCalls = []) ∧
    (∀ toolCalls : List OAIAccEntry, toolCalls ≠ [] →
      convertAccumulatedToolCallsToGemini toolCalls =
        some { parts := [{ thought := false, text := some "" }]
               finishReason := "tool_calls"
               functionCalls := toolCalls.map oaiAccToFunctionCall }) := by
  refine ⟨?_, runOAILines_no_done_no_calls, ?_⟩
  · unfold oaiSingleToolCallStream
    rw [runOAILines_data_none _ _ _ _ (oai_start_step id nm hid)]
    rw [oai_frag_run id nm hid frags ""]
    rw [stringEmptyAppend]
  · intro toolCalls h
    unfold convertAccumulatedToolCallsToGemini
    rw [if_neg]
    simp only [List.isEmpty_eq_true, List.map_eq_nil_iff]
    exact h

/-- Witness for C1: the spec's three-chunk fixture (`search`, fragments
`{"q":` and `"cats"}`) yields exactly one function-call unit with args
`{"q": "cats"}` at `[DONE]`. -/
theorem c1_witness :
    runOAILines
        (oaiSingleToolCallStream "c1" "search"
          ["\x7b\"q\":", "\"cats\"\x7d"]) initOAIState =
      [{ parts := [{ thought := false, text := some "" }]
         finishReason := "tool_calls"
         functionCalls :=
           [{ id := some "c1"
              name := some "search"
              args := some (Json.obj [("q", Json.str "cats")]) }] }] := by
  have h := (c1_openai_fragmented_tool_call "c1" "search"
    ["\x7b\"q\":", "\"cats\"\x7d"] (by decide)).1
  rw [h]
  rfl

/-! ## Claim C3: cancellation mid-stream -/

/-- `handlePendingFunctionCall` always emits a ToolCallRequest event. -/
theorem handle_pending_not_cancel (fc : UFunctionCall) (st : TurnState) :
    (handlePendingFunctionCall fc st).1 ≠ TurnEvent.userCancelled := by
  unfold handlePendingFunctionCall
  rcases fc with ⟨id, name, args⟩
  cases id with
  | some i => simp
  | none =>
      rcases st with ⟨pend, supply⟩
      cases supply with
      | nil => simp
      | cons p rest => simp

/-- The function-call loop never emits a cancellation event. -/
theorem turnEmitCalls_no_cancel (fcs : List UFunctionCall) :
    ∀ (st : TurnState) (e : TurnEvent), e ∈ (turnEmitCalls fcs st).1 →
      e ≠ TurnEvent.userCancelled := by
  induction fcs with
  | nil =>
      intro st e he
      simp [turnEmitCalls] at he
  | cons fc rest ih =>
      intro st e he
      simp only [turnEmitCalls] at he
      rcases List.mem_cons.mp he with h | h
      · subst h
        exact handle_pending_not_cancel fc st
      · exact ih _ e h

/-- Processing one unit never emits a cancellation event. -/
theorem turn_process_unit_no_cancel (u : GenResponse) (st : TurnState)
    (e : TurnEvent) (he : e ∈ (turnProcessUnit u st).1) :
    e ≠ TurnEvent.userCancelled := by
  have body : ∀ (e : TurnEvent), e ∈ (turnProcessUnitBody u st).1 →
      e ≠ TurnEvent.userCancelled := by
    intro e he
    simp only [turnProcessUnitBody] at he
    rcases List.mem_append.mp he with h | h
    · by_cases hc : getResponseText u = ""
      · rw [if_pos hc] at h
        simp at h
      · rw [if_neg hc] at h
        simp at h
        subst h
        simp
    · exact turnEmitCalls_no_cancel _ _ _ h
  unfold turnProcessUnit at he
  rcases hp : u.parts.head? with _ | p
  · rw [hp] at he
    exact body e he
  · rw [hp] at he
    have he' : e ∈ (if p.thought = true then
        ([TurnEvent.thought (parseThought (p.text.getD ""))], st)
      else turnProcessUnitBody u st).1 := he
    split at he'
    · simp at he'
      subst he'
      simp
    · exact body e he'

/-- An unsignaled run never emits a cancellation event. -/
theorem turnRunUnits_no_abort_no_cancel (units : List GenResponse) :
    ∀ (n : Nat) (st : TurnState) (e : TurnEvent),
      e ∈ turnRunUnits units (fun _ => false) n st →
      e ≠ TurnEvent.userCancelled := by
  induction units with
  | nil =>
      intro n st e he
      simp [turnRunUnits] at he
  | cons u rest ih =>
      intro n st e he
      simp only [turnRunUnits, Bool.false_eq_true, if_false] at he
      rcases List.mem_append.mp he with h | h
      · exact turn_process_unit_no_cancel u st e h
      · exact ih (n + 1) _ e h

/-- Signaling after `k` processed units truncates the run to the events of
the first `k` units followed by exactly one cancellation event. -/
theorem turnRunUnits_abort :
    ∀ (units : List GenResponse) (k n : Nat) (st : TurnState),
      k < units.length →
      turnRunUnits units (fun m => decide (n + k ≤ m)) n st =
        turnRunUnits (units.take k) (fun _ => false) n st ++
          [TurnEvent.userCancelled] := by
  intro units
  induction units with
  | nil =>
      intro k n st hk
      simp at hk
  | cons u rest ih =>
      intro k n st hk
      cases k with
      | zero =>
          simp only [turnRunUnits, List.take_zero]
          rw [if_pos (by simp)]
          rfl
      | succ k =>
          simp only [turnRunUnits, List.take_succ_cons]
          rw [if_neg (by simp), if_neg (by simp)]
          rcases hp : turnProcessUnit u st with ⟨evs, st'⟩
          simp only [List.append_assoc]
          congr 1
          have harr : (fun m => decide (n + (k + 1) ≤ m)) =
              (fun m => decide ((n + 1) + k ≤ m)) := by
            have h : n + (k + 1) = (n + 1) + k := by omega
            rw [h]
          rw [harr]
          exact ih k (n + 1) st'
            (by simp only [List.length_cons] at hk; omega)

/-- Claim C3 (amended): when the cancellation token becomes signaled after
the k-th response unit has been processed and another unit arrives, the run
emits exactly the events of the first k units (each unit may contribute
several events) followed by exactly one UserCancelled event, and terminates
without reading further units; no UserCancelled event occurs among the prior
events. -/
theorem c3_amended_cancellation (units : List GenResponse) (k : Nat)
    (st : TurnState) (hk : k < units.length) :
    turnRun units (some k) st =
      turnRun (units.take k) none st ++ [TurnEvent.userCancelled] ∧
    ∀ e ∈ turnRun (units.take k) none st, e ≠ TurnEvent.userCancelled := by
  have e2 : turnRun (units.take k) none st =
      turnRunUnits (units.take k) (fun _ => false) 0 st := rfl
  constructor
  · have e1 : turnRun units (some k) st =
        turnRunUnits units (fun m => decide (0 + k ≤ m)) 0 st := by
      unfold turnRun
      congr 1
      funext m
      simp
    rw [e1, e2, turnRunUnits_abort units k 0 st hk]
  · intro e he
    rw [e2] at he
    exact turnRunUnits_no_abort_no_cancel _ _ _ _ he

/-- First unit of claim C3's counterexample: one flush unit carrying two
completed function calls (as the accumulating adapters produce). -/
def c3cexUnit1 : GenResponse :=
  { parts := [{ thought := false, text := some "" }]
    finishReason := "tool_calls"
    functionCalls := [{ id := some "a", name := some "t1", args := none },
                      { id := some "b", name := some "t2", args := none }] }

/-- Second unit of claim C3's counterexample (never processed). -/
def c3cexUnit2 : GenResponse :=
  { parts := [{ thought := false, text := some "x" }]
    finishReason := "STOP"
    functionCalls := [] }

/-- Counterexample to claim C3: with cancellation signaled after k = 1
processed unit, the run emits two ToolCallRequest events before the
cancellation event — more than k events — because one response unit can
carry several function calls. -/
theorem c3_counterexample :
    turnRun [c3cexUnit1, c3cexUnit2] (some 1)
        { pending := [], supply := [] } =
      [TurnEvent.toolCallRequest
         { callId := "a", name := "t1", args := Json.obj [],
           isClientInitiated := false },
       TurnEvent.toolCallRequest
         { callId := "b", name := "t2", args := Json.obj [],
           isClientInitiated := false },
       TurnEvent.userCancelled] ∧
    ¬ ((turnRun [c3cexUnit1, c3cexUnit2] (some 1)
          { pending := [], supply := [] }).length ≤ 1 + 1) :=
  ⟨rfl, by decide⟩

/-- Witness for C3 (amended): on the two-unit stream with k = 1 the run is
the first unit's events followed by exactly one cancellation event. -/
theorem c3_witness :
    turnRun [c3cexUnit1, c3cexUnit2] (some 1)
        { pending := [], supply := [] } =
      turnRun [c3cexUnit1] none { pending := [], supply := [] } ++
        [TurnEvent.userCancelled] ∧
    ∀ e ∈ turnRun [c3cexUnit1] none { pending := [], supply := [] },
      e ≠ TurnEvent.userCancelled := by
  have h := c3_amended_cancellation [c3cexUnit1, c3cexUnit2] 1
    { pending := [], supply := [] } (by decide)
  simpa using h

/-! ## Claim C4: backfilled call ids -/

/-- `Nat.digitChar` never yields a dash. -/
theorem digitChar_ne_dash (m : Nat) : Nat.digitChar m ≠ '-' := by
  intro h
  rcases Nat.lt_or_ge m 16 with hm | hm
  · interval_cases m <;> simp [Nat.digitChar] at h
  · have h0 : m ≠ 0 := by omega
    have h1 : m ≠ 1 := by omega
    have h2 : m ≠ 2 := by omega
    have h3 : m ≠ 3 := by omega
    have h4 : m ≠ 4 := by omega
    have h5 : m ≠ 5 := by omega
    have h6 : m ≠ 6 := by omega
    have h7 : m ≠ 7 := by omega
    have h8 : m ≠ 8 := by omega
    have h9 : m ≠ 9 := by omega
    have h10 : m ≠ 10 := by omega
    have h11 : m ≠ 11 := by omega
    have h12 : m ≠ 12 := by omega
    have h13 : m ≠ 13 := by omega
    have h14 : m ≠ 14 := by omega
    have h15 : m ≠ 15 := by omega
    simp [Nat.digitChar, h0, h1, h2, h3, h4, h5, h6, h7, h8, h9, h10, h11,
      h12, h13, h14, h15] at h

/-- `Nat.toDigitsCore` only prepends digit characters: no dash appears. -/
theorem toDigitsCore_no_dash (b : Nat) :
    ∀ (f n : Nat) (ds : List Char), '-' ∉ ds →
      '-' ∉ Nat.toDigitsCore b f n ds := by
  intro f
  induction f with
  | zero =>
      intro n ds h
      simpa [Nat.toDigitsCore] using h
  | succ f ih =>
      intro n ds h
      simp only [Nat.toDigitsCore]
      split
      · intro hmem
        rcases List.mem_cons.mp hmem with h1 | h2
        · exact digitChar_ne_dash _ h1.symm
        · exact h h2
      · apply ih
        intro hmem
        rcases List.mem_cons.mp hmem with h1 | h2
        · exact digitChar_ne_dash _ h1.symm
        · exact h h2

/-- The decimal rendering of a natural number contains no dash. -/
theorem repr_no_dash (n : Nat) : '-' ∉ (Nat.repr n).data := by
  simp only [Nat.repr, Nat.toDigits, List.asString]
  exact toDigitsCore_no_dash 10 (n + 1) n [] (by simp)

/-- Splitting at a dash neither side contains is unambiguous. -/
theorem dashSplitAux :
    ∀ (u1 v1 u2 v2 : List Char), '-' ∉ u1 → '-' ∉ u2 →
      u1 ++ '-' :: v1 = u2 ++ '-' :: v2 → u1 = u2 ∧ v1 = v2 := by
  intro u1
  induction u1 with
  | nil =>
      intro v1 u2 v2 _ h2 h
      cases u2 with
      | nil => simpa using h
      | cons c u2' =>
          simp only [List.nil_append, List.cons_append, List.cons.injEq] at h
          obtain ⟨hc, _⟩ := h
          subst hc
          exact absurd (List.mem_cons_self _ _) h2
  | cons c u1' ih =>
      intro v1 u2 v2 h1 h2 h
      cases u2 with
      | nil =>
          simp only [List.cons_append, List.nil_append, List.cons.injEq] at h
          obtain ⟨hc, _⟩ := h
          subst hc
          exact absurd (List.mem_cons_self _ _) h1
      | cons d u2' =>
          simp only [List.cons_append, List.cons.injEq] at h
          obtain ⟨hcd, h'⟩ := h
          subst hcd
          have h1' : '-' ∉ u1' := fun hx => h1 (List.mem_cons_of_mem _ hx)
          have h2' : '-' ∉ u2' := fun hx => h2 (List.mem_cons_of_mem _ hx)
          obtain ⟨ha, hb⟩ := ih v1 u2' v2 h1' h2' h'
          exact ⟨by rw [ha], hb⟩

/-- Two backfilled call ids agree only when their rendered timestamp and
random suffix agree: the suffix and the timestamp are recovered from the
last two dash-separated components (the name may itself contain dashes). -/
theorem backfillCallId_inj (n1 : String) (t1 : Nat) (r1 : String)
    (n2 : String) (t2 : Nat) (r2 : String)
    (h1 : '-' ∉ r1.data) (h2 : '-' ∉ r2.data)
    (h : backfillCallId n1 t1 r1 = backfillCallId n2 t2 r2) :
    Nat.repr t1 = Nat.repr t2 ∧ r1 = r2 := by
  have hdash : ("-" : String).data = ['-'] := rfl
  have hd := congrArg String.data h
  simp only [backfillCallId, String.data_append, hdash] at hd
  have hrev := congrArg List.reverse hd
  simp only [List.reverse_append, List.reverse_cons, List.reverse_nil,
    List.nil_append, List.append_assoc, List.singleton_append,
    List.cons_append] at hrev
  have h1' : '-' ∉ r1.data.reverse := by simpa using h1
  have h2' : '-' ∉ r2.data.reverse := by simpa using h2
  obtain ⟨hr, hrest⟩ := dashSplitAux _ _ _ _ h1' h2' hrev
  have hT1 : '-' ∉ (Nat.repr t1).data.reverse := by simpa using repr_no_dash t1
  have hT2 : '-' ∉ (Nat.repr t2).data.reverse := by simpa using repr_no_dash t2
  obtain ⟨hT, _⟩ := dashSplitAux _ _ _ _ hT1 hT2 hrest
  constructor
  · exact stringDataInjective (List.reverse_injective hT)
  · exact stringDataInjective (List.reverse_injective hr)

/-- A backfilled call id is never empty: it contains at least two dashes. -/
theorem backfillCallId_ne_empty (n : String) (t : Nat) (r : String) :
    backfillCallId n t r ≠ "" := by
  intro h
  have hlen := congrArg String.length h
  have hone : ("-" : String).length = 1 := rfl
  have hzero : ("" : String).length = 0 := rfl
  simp only [backfillCallId, String.length_append, hone, hzero] at hlen
  omega

/-- Claim C4 (amended): a function call without a backend-supplied id gets
the callId `name ++ "-" ++ Date.now() ++ "-" ++ randomHex`; it is never
empty; and two backfilled ids are distinct whenever the observed
`(timestamp, random-suffix)` draws differ as rendered strings (the random
suffix, produced by `Math.random().toString(16).slice(2)`, contains no
dash). Equal draws — possible since `Date.now()` has millisecond resolution
and `Math.random()` carries no uniqueness guarantee — yield equal ids, so
run-uniqueness is only as strong as the distinctness of the draws. -/
theorem c4_amended_backfilled_ids (fc : UFunctionCall) (n : String)
    (t : Nat) (r : String) (rest : List (Nat × String))
    (pend : List ToolCallRequestInfo)
    (hid : fc.id = none) (hname : fc.name = some n) (hn : n ≠ "") :
    ((handlePendingFunctionCall fc
        { pending := pend, supply := (t, r) :: rest }).1 =
      TurnEvent.toolCallRequest
        { callId := backfillCallId n t r, name := n,
          args := fc.args.getD (Json.obj []),
          isClientInitiated := false }) ∧
    backfillCallId n t r ≠ "" ∧
    (∀ (n2 : String) (t2 : Nat) (r2 : String),
      '-' ∉ r.data → '-' ∉ r2.data →
      (Nat.repr t, r) ≠ (Nat.repr t2, r2) →
      backfillCallId n t r ≠ backfillCallId n2 t2 r2) := by
  refine ⟨?_, backfillCallId_ne_empty n t r, ?_⟩
  · unfold handlePendingFunctionCall
    rw [hid, hname]
    simp [interpolate, jsOr, hn]
  · intro n2 t2 r2 hr1 hr2 hne heq
    obtain ⟨hT, hr⟩ := backfillCallId_inj n t r n2 t2 r2 hr1 hr2 heq
    exact hne (by rw [hT, hr])

/-- The id-less function call of claim C4's counterexample. -/
def c4cexCall : UFunctionCall :=
  { id := none, name := some "a", args := none }

/-- Counterexample to claim C4: two id-less tool calls in the same run that
observe the same `(Date.now(), Math.random())` draw — possible since the
clock has millisecond resolution and `Math.random()` guarantees no
distinctness — receive identical callIds. -/
theorem c4_counterexample :
    ((handlePendingFunctionCall c4cexCall
        ((handlePendingFunctionCall c4cexCall
          { pending := [], supply := [(5, "ff"), (5, "ff")] }).2)).2.pending.map
        (fun req => req.callId)) = ["a-5-ff", "a-5-ff"] ∧
    ¬ (["a-5-ff", "a-5-ff"] : List String).Nodup :=
  ⟨rfl, by decide⟩

/-- Witness for C4 (amended): a concrete backfill produces the documented
shape, a non-empty id, and distinctness under differing draws. -/
theorem c4_witness :
    ((handlePendingFunctionCall
        { id := none, name := some "search", args := none }
        { pending := [], supply := [(42, "8f")] }).1 =
      TurnEvent.toolCallRequest
        { callId := backfillCallId "search" 42 "8f", name := "search",
          args := Json.obj [], isClientInitiated := false }) ∧
    backfillCallId "search" 42 "8f" ≠ "" ∧
    (∀ (n2 : String) (t2 : Nat) (r2 : String),
      '-' ∉ ("8f" : String).data → '-' ∉ r2.data →
      (Nat.repr 42, "8f") ≠ (Nat.repr t2, r2) →
      backfillCallId "search" 42 "8f" ≠ backfillCallId n2 t2 r2) :=
  c4_amended_backfilled_ids
    { id := none, name := some "search", args := none }
    "search" 42 "8f" [] [] rfl rfl (by decide)
